import Mathlib

/-!
Verification of the textbook-content extractor and session-history logic
of the robotics tutor backend, via a shallow embedding of the Python code.
Strings are modelled as lists of characters.
-/

set_option maxHeartbeats 1000000
set_option maxRecDepth 100000

/-- Python strings, modelled as lists of characters. -/
abbrev Str := List Char

/-- Whitespace characters recognised by the embedded `strip` and the
regular-expression whitespace class (the ASCII whitespace set). -/
def isSpace (c : Char) : Bool :=
  c = ' ' || c = '\t' || c = '\n' || c = '\r' || c = (Char.ofNat 11) || c = (Char.ofNat 12)

/-- Python `str.strip()`: remove leading and trailing whitespace. -/
def strip (l : Str) : Str :=
  (((l.dropWhile isSpace).reverse).dropWhile isSpace).reverse

/-- Markup tree node: a text node, or an element with a tag name, a list of
class tokens (the split `class` attribute), other attributes, and children. -/
inductive Node where
  | text : Str → Node
  | elem : Str → List Str → List (Str × Str) → List Node → Node

mutual
/-- All descendant text-node strings of a node, in document order. -/
def texts : Node → List Str
  | .text s => [s]
  | .elem _ _ _ ch => textsL ch

/-- All descendant text-node strings of a list of nodes, in order. -/
def textsL : List Node → List Str
  | [] => []
  | n :: ns => texts n ++ textsL ns
end

/-- Concatenation of a list of strings. -/
def joinL : List Str → Str
  | [] => []
  | s :: r => s ++ joinL r

/-- `element.get_text()`: concatenation of all descendant strings. -/
def getText (n : Node) : Str := joinL (texts n)

/-- Join a list of strings with a separator (Python `sep.join`). -/
def inter (sep : Str) : List Str → Str
  | [] => []
  | [s] => s
  | s :: r => s ++ sep ++ inter sep r

/-- `element.get_text(strip=True)`: each descendant string stripped, empty
fragments skipped, remaining fragments concatenated. -/
def getTextStrip (n : Node) : Str :=
  joinL (((texts n).map strip).filter (fun s => !s.isEmpty))

/-- `element.get_text(" ", strip=True)`: each descendant string stripped,
empty fragments skipped, remaining fragments joined by a single space. -/
def getTextSpaceStrip (n : Node) : Str :=
  inter ([' ']) (((texts n).map strip).filter (fun s => !s.isEmpty))

/-- Tag name of an element node (text nodes have none). -/
def tagIs (t : Str) : Node → Bool
  | .text _ => false
  | .elem tg _ _ _ => tg == t

/-- Membership of a token in an element's class list (`class_=` matching). -/
def hasClass (c : Str) : Node → Bool
  | .text _ => false
  | .elem _ cs _ _ => cs.contains c

/-- Attribute lookup on an element node (`element.get(key)`). -/
def getAttr (k : Str) : Node → Option Str
  | .text _ => none
  | .elem _ _ a _ => (a.find? (fun kv => kv.1 == k)).map (fun kv => kv.2)

mutual
/-- First node among `ns` and their descendants, in preorder, satisfying `p`. -/
def findNL (p : Node → Bool) : List Node → Option Node
  | [] => none
  | n :: ns =>
    if p n then some n else
      match findNC p n with
      | some r => some r
      | none => findNL p ns

/-- First descendant of `n` (excluding `n` itself), in preorder, satisfying `p`.
This is BeautifulSoup `find`. -/
def findNC (p : Node → Bool) : Node → Option Node
  | .text _ => none
  | .elem _ _ _ ch => findNL p ch
end

mutual
/-- All nodes among `ns` and their descendants, in preorder, satisfying `p`. -/
def collectL (p : Node → Bool) : List Node → List Node
  | [] => []
  | n :: ns => (if p n then [n] else []) ++ collectC p n ++ collectL p ns

/-- All descendants of `n` (excluding `n` itself), in preorder, satisfying `p`.
This is BeautifulSoup `find_all`. -/
def collectC (p : Node → Bool) : Node → List Node
  | .text _ => []
  | .elem _ _ _ ch => collectL p ch
end

mutual
/-- Remove every node matching `p` (with its subtree), at any depth, from
below `n`; models iterated `decompose` over a `find_all` result. -/
def removeAll (p : Node → Bool) : Node → Node
  | .text s => .text s
  | .elem t c a ch => .elem t c a (removeAllL p ch)

/-- List version of `removeAll`. -/
def removeAllL (p : Node → Bool) : List Node → List Node
  | [] => []
  | n :: ns =>
    if p n then removeAllL p ns else removeAll p n :: removeAllL p ns
end

mutual
/-- Replace every topmost node matching `p` below `n` with the text computed
by `f` from it; models iterated `replace_with` over a `find_all` result
(nodes nested inside an already-replaced node are detached, so replacing
them has no effect on the final tree). -/
def replaceTop (p : Node → Bool) (f : Node → Str) : Node → Node
  | .text s => .text s
  | .elem t c a ch => .elem t c a (replaceTopL p f ch)

/-- List version of `replaceTop`. -/
def replaceTopL (p : Node → Bool) (f : Node → Str) : List Node → List Node
  | [] => []
  | n :: ns =>
    if p n then .text (f n) :: replaceTopL p f ns
    else replaceTop p f n :: replaceTopL p f ns
end

/-- Minimal-entity escaping of serialized text content. -/
def escText (s : Str) : Str :=
  s.flatMap fun c =>
    if c = '&' then ("&amp;").data
    else if c = '<' then ("&lt;").data
    else if c = '>' then ("&gt;").data
    else [c]

/-- Entity escaping of serialized attribute values (also escapes quotes). -/
def escAttr (s : Str) : Str :=
  s.flatMap fun c =>
    if c = '&' then ("&amp;").data
    else if c = '<' then ("&lt;").data
    else if c = '>' then ("&gt;").data
    else if c = '"' then ("&quot;").data
    else [c]

mutual
/-- HTML serialization of a node, `str(element)`: used only for the
substring-based display-mode heuristic. -/
def serializeN : Node → Str
  | .text s => escText s
  | .elem t c a ch =>
    '<' :: (t ++
      (if c.isEmpty then [] else
        (" class=\"").data ++ inter ([' ']) c ++ ['"']) ++
      (a.flatMap fun kv => ' ' :: (kv.1 ++ ("=\"").data ++ escAttr kv.2 ++ ['"'])) ++
      ['>'] ++ serializeL ch ++ (("</").data ++ t ++ ['>']))

/-- Serialization of a list of sibling nodes. -/
def serializeL : List Node → Str
  | [] => []
  | n :: ns => serializeN n ++ serializeL ns
end

/-- Python substring containment, `sub in l`. -/
def containsB (sub : Str) : Str → Bool
  | [] => sub.isPrefixOf []
  | c :: tl => sub.isPrefixOf (c :: tl) || containsB sub tl


/-- Element with the `navigation` class (removed as noise). -/
def isNav (n : Node) : Bool := hasClass (("navigation").data) n

/-- Element with the `katex` class (a rendered-math container). -/
def isKatex (n : Node) : Bool := hasClass (("katex").data) n

/-- An `annotation` element carrying `encoding="application/x-tex"`. -/
def isAnnotTex (n : Node) : Bool :=
  tagIs (("annotation").data) n &&
    getAttr (("encoding").data) n == some (("application/x-tex").data)

/-- A `math` element carrying `display="block"`. -/
def isMathBlock (n : Node) : Bool :=
  tagIs (("math").data) n && getAttr (("display").data) n == some (("block").data)

/-- Display-mode heuristic for a math container: the serialized form contains
the literal `display="block"`, or some descendant is a block-display `math`
element. -/
def isDisplay (n : Node) : Bool :=
  containsB (("display=\"block\"").data) (serializeN n) || (findNC isMathBlock n).isSome

/-- Replacement text for a math container: the trimmed annotation source
wrapped in display or inline dollars, falling back to the flattened visible
text when no annotation is present. -/
def katexRepl (n : Node) : Str :=
  match findNC isAnnotTex n with
  | some a =>
    let lt := strip (getText a)
    if isDisplay n then ("$$\n").data ++ lt ++ ("\n$$").data
    else '$' :: (lt ++ ['$'])
  | none => getText n

/-- Pipeline stage 1: navigation noise removal. -/
def stage1 (d : Node) : Node := removeAll isNav d

/-- Pipeline stage 2: math-container rewriting after noise removal. -/
def stage2 (d : Node) : Node := replaceTop isKatex katexRepl (stage1 d)

/-- The location pattern: one-or-more digits, a dot, one-or-more digits,
one-or-more whitespace, then the rest of the line (the title). Models
`re.match` with pattern digits dot digits whitespace dot-star. -/
def matchLoc (t : Str) : Option (Str × Str × Str) :=
  let c := t.takeWhile Char.isDigit
  if c.isEmpty then none else
    match t.dropWhile Char.isDigit with
    | '.' :: r2 =>
      let s := r2.takeWhile Char.isDigit
      if s.isEmpty then none else
        let r3 := r2.dropWhile Char.isDigit
        if (r3.takeWhile isSpace).isEmpty then none else
          some (c, s, ((r3.dropWhile isSpace).takeWhile (fun ch => ch ≠ '\n')))
    | _ => none

/-- Chapter and section labels derived from the heading text. -/
def locFromText (t : Str) : Str × Str :=
  match matchLoc t with
  | some (c, s, ttl) => (c, c ++ '.' :: (s ++ (" — ").data ++ ttl))
  | none => ((("Unknown").data), t)

/-- Chapter and section labels of a processed tree: from the first `h1`
heading if any, otherwise the named defaults. -/
def locInfo (d : Node) : Str × Str :=
  match findNC (tagIs (("h1").data)) d with
  | some h => locFromText (getTextStrip h)
  | none => ((("Unknown").data), (("Unknown Location").data))

/-- A figure record: display filename and caption. -/
structure Fig where
  id : Str
  description : Str
deriving DecidableEq

/-- Element with the `figure-container` class. -/
def isFig (n : Node) : Bool := hasClass (("figure-container").data) n

/-- Final path segment of a source reference: the text after the last slash,
or the whole reference if it has no slash (`src.split('/')[-1]`). -/
def lastSeg (s : Str) : Str :=
  ((s.reverse.takeWhile (fun c => c ≠ '/')).reverse)

/-- The figure record extracted from one figure container. -/
def figRec (n : Node) : Fig :=
  let src : Str :=
    match findNC (tagIs (("img").data)) n with
    | some im => (getAttr (("src").data) im).getD []
    | none => ("No Source").data
  let cap : Str :=
    match findNC (hasClass (("figure-caption").data)) n with
    | some cp => getTextStrip cp
    | none => ("No Caption").data
  ⟨lastSeg src, cap⟩

mutual
/-- Figure records contributed by one node and its subtree, in document
order. The loop iterates a pre-materialized `find_all` list and calls
`decompose` on each container, which destroys every node of its subtree;
so a container reached with `destroyed = true` (it lay inside an earlier,
enclosing figure container) finds neither image nor caption at its own
iteration and yields the literal No Source / No Caption record, while a
container reached intact yields the record of its (still whole) subtree
and marks that whole subtree destroyed. -/
def figRecs (destroyed : Bool) : Node → List Fig
  | .text _ => []
  | .elem t c a ch =>
    if isFig (Node.elem t c a ch) then
      (if destroyed then Fig.mk (("No Source").data) (("No Caption").data)
       else figRec (Node.elem t c a ch)) :: figRecsL true ch
    else figRecsL destroyed ch

/-- List version of `figRecs`. -/
def figRecsL (destroyed : Bool) : List Node → List Fig
  | [] => []
  | n :: ns => figRecs destroyed n ++ figRecsL destroyed ns
end

/-- Figure records of a node's children subtrees (`find_all` searches
descendants only, so the document root itself is not tested). -/
def figRecsC (destroyed : Bool) : Node → List Fig
  | .text _ => []
  | .elem _ _ _ ch => figRecsL destroyed ch

/-- All figure records of the processed tree, in document order (one per
figure container, nested containers included, never skipped); the loop
starts on the document with nothing yet destroyed. -/
def figsOf (d : Node) : List Fig := figRecsC false (stage2 d)

/-- Pipeline stage 3: the tree after figure containers are removed. -/
def stage3 (d : Node) : Node := removeAll isFig (stage2 d)

/-- The rendered block of one paragraph or div element, if it produces one. -/
def blockOf (n : Node) : Option Str :=
  if hasClass (("equation-block").data) n then
    some ('\n' :: (getTextSpaceStrip n ++ ['\n']))
  else if hasClass (("expandable-section").data) n then
    let h : Str :=
      match findNC (hasClass (("header-text").data)) n with
      | some x => getTextStrip x
      | none => ("Note").data
    let inner : Str :=
      match findNC (hasClass (("expand-content").data)) n with
      | some x => getTextSpaceStrip x
      | none => []
    some ('\n' :: (("[SIDEBAR: ").data ++ h ++ ']' :: '\n' :: (inner ++ ['\n'])))
  else if tagIs (("p").data) n then
    let t := getTextSpaceStrip n
    if t.isEmpty then none else some t
  else none

/-- Paragraph-or-div test (the `find_all` target of the block loop). -/
def isPDiv (n : Node) : Bool := tagIs (("p").data) n || tagIs (("div").data) n

/-- The ordered content blocks of the processed tree. -/
def contentBlocks (d : Node) : List Str :=
  (collectC isPDiv (stage3 d)).filterMap blockOf

/-- The lines of the figures section. -/
def figSection (figs : List Fig) : List Str :=
  if figs.isEmpty then [("No figures in this section.").data]
  else figs.flatMap fun f =>
    [f.description ++ [':'], ("Filename: ").data ++ f.id, ("(Image attached)\n").data]

/-- The ordered list of output lines, before joining. -/
def outputList (d : Node) : List Str :=
  (("[STUDENT LOCATION]").data) ::
    ((("Chapter: ").data) ++ (locInfo (stage2 d)).1) ::
    ((("Section: ").data) ++ (locInfo (stage2 d)).2) ::
    ([]) ::
    (("[SECTION TEXT — AUTHORITATIVE]").data) ::
    (contentBlocks d ++
      ([]) ::
      (("[FIGURES — AUTHORITATIVE]").data) ::
      figSection (figsOf d))

/-- The extractor: from a document tree to the structured text document. -/
def parse_textbook_content (d : Node) : Str :=
  inter (['\n']) (outputList d)

/-- One stored history entry: a role label and a message. -/
abbrev HistEntry := Str × Str

/-- One chat turn appended to a session's history: the student message and
the tutor reply are appended, then the history is truncated to the most
recent 20 entries when it exceeds 20. -/
def stepSession (h : List HistEntry) (m r : Str) : List HistEntry :=
  let h2 := h ++ [((("Student").data), m), ((("Tutor").data), r)]
  if 20 < h2.length then h2.drop (h2.length - 20) else h2

/-- The stored history of a session after a sequence of turns, starting empty. -/
def runSession (ts : List (Str × Str)) : List HistEntry :=
  ts.foldl (fun h t => stepSession h t.1 t.2) []

/-- The full untruncated history generated by a sequence of turns. -/
def fullHist (ts : List (Str × Str)) : List HistEntry :=
  ts.flatMap fun t => [((("Student").data), t.1), ((("Tutor").data), t.2)]

/-- The last `k` elements of a list. -/
def lastN (k : Nat) (l : List α) : List α := l.drop (l.length - k)

mutual
/-- Structural equivalence of two nodes up to the contents of
navigation-classed subtrees: tag, class list and attributes must agree, and
children must agree pointwise unless the node carries the `navigation`
class, in which case the children may differ arbitrarily. -/
def nEq : Node → Node → Bool
  | .text s, .text s2 => s == s2
  | .elem t c a ch, .elem t2 c2 a2 ch2 =>
    t == t2 && c == c2 && a == a2 &&
      (c.contains (("navigation").data) || nEqL ch ch2)
  | _, _ => false

/-- Pointwise `nEq` on child lists. -/
def nEqL : List Node → List Node → Bool
  | [], [] => true
  | x :: xs, y :: ys => nEq x y && nEqL xs ys
  | _, _ => false
end

/-- A machine-readable math annotation element holding source text `E`. -/
def annN (E : Str) : Node :=
  .elem (("annotation").data) [] [((("encoding").data), (("application/x-tex").data))]
    [.text E]

/-- A katex container in display mode (block-display `math` descendant)
holding annotation source text `E`. -/
def katexD (E : Str) : Node :=
  .elem (("span").data) [("katex").data] []
    [.elem (("math").data) [] [((("display").data), (("block").data))]
      [.elem (("semantics").data) [] [] [annN E]]]

/-- An inline katex container (no display marker) holding annotation source
text `E`. -/
def katexI (E : Str) : Node :=
  .elem (("span").data) [("katex").data] []
    [.elem (("math").data) [] []
      [.elem (("semantics").data) [] [] [annN E]]]

/-- A document whose only content is an equation-block div holding a
display-mode math container with annotation text `E`. -/
def eqPage (E : Str) : Node :=
  .elem (("[document]").data) [] []
    [.elem (("div").data) [("equation-block").data] [] [katexD E]]

/-- A document whose only content is a paragraph holding an inline math
container with annotation text `E`. -/
def pPage (E : Str) : Node :=
  .elem (("[document]").data) [] [] [.elem (("p").data) [] [] [katexI E]]

/-- A document whose only content is a display-mode math container sitting
directly at top level, outside any paragraph or div. -/
def cexDocD : Node := .elem (("[document]").data) [] [] [katexD (("x=1").data)]

/-- A document whose only content is an inline math container sitting
directly at top level, outside any paragraph or div. -/
def cexDocI : Node := .elem (("[document]").data) [] [] [katexI (("x=1").data)]

/-- An image node with a rooted source path. -/
def robotImg : Node :=
  .elem (("img").data) [] [((("src").data), (("/img/robot.png").data))] []

/-- A figure container holding an image and a caption. -/
def robotFig : Node :=
  .elem (("div").data) [("figure-container").data] []
    [robotImg,
     .elem (("div").data) [("figure-caption").data] [] [.text (("A robot arm").data)]]

/-- A figure container holding neither an image nor a caption. -/
def bareFig : Node := .elem (("div").data) [("figure-container").data] [] []

/-- A figure container with its own image and caption, to be nested inside
another figure container. -/
def innerFig : Node :=
  .elem (("div").data) [("figure-container").data] []
    [.elem (("img").data) [] [((("src").data), (("/img/inner.png").data))] [],
     .elem (("div").data) [("figure-caption").data] [] [.text (("Inner caption").data)]]

/-- A figure container whose only content is another figure container. -/
def outerFig : Node := .elem (("div").data) [("figure-container").data] [] [innerFig]

/-- A document whose only content is the nested pair of figure containers. -/
def nestedFigDoc : Node := .elem (("[document]").data) [] [] [outerFig]

/-- A document with a heading, a paragraph, and one figure container with an
image and a caption. -/
def robotDoc : Node :=
  .elem (("[document]").data) [] []
    [.elem (("h1").data) [] [] [.text (("2.1 Kinematics").data)],
     .elem (("p").data) [] [] [.text (("Hello world.").data)],
     robotFig]

/-- A katex container with no annotation descendant. -/
def kNoAnnot : Node :=
  .elem (("span").data) [("katex").data] []
    [.elem (("span").data) [("katex-html").data] [] [.text (("x + 1").data)]]

/-- An expandable-section div with neither header nor content sub-element. -/
def bareSidebar : Node := .elem (("div").data) [("expandable-section").data] [] []

/-- Top-level content: a navigation bar (with some content) and a paragraph. -/
def navChA : List Node :=
  [.elem (("div").data) [("navigation").data] []
     [.elem (("a").data) [] [] [.text (("Home").data)],
      .text (("Secret menu text").data)],
   .elem (("p").data) [] [] [.text (("Visible body.").data)]]

/-- The same content with different text inside the navigation bar. -/
def navChB : List Node :=
  [.elem (("div").data) [("navigation").data] []
     [.text (("Completely different").data)],
   .elem (("p").data) [] [] [.text (("Visible body.").data)]]

/-- A document containing a navigation bar (with some content) and a
paragraph. -/
def navDocA : Node := .elem (("[document]").data) [] [] navChA

/-- The same document with different contents inside the navigation bar. -/
def navDocB : Node := .elem (("[document]").data) [] [] navChB

theorem twAllApp {α} (p : α → Bool) (l r : List α) (h : ∀ a ∈ l, p a = true) :
    (l ++ r).takeWhile p = l ++ r.takeWhile p := by
  induction l with
  | nil => simp
  | cons x xs ih =>
    simp only [List.cons_append, List.takeWhile_cons, h x (List.mem_cons_self x xs), ite_true]
    rw [ih (fun a ha => h a (List.mem_cons_of_mem x ha))]

theorem dwAllApp {α} (p : α → Bool) (l r : List α) (h : ∀ a ∈ l, p a = true) :
    (l ++ r).dropWhile p = r.dropWhile p := by
  induction l with
  | nil => simp
  | cons x xs ih =>
    simp only [List.cons_append, List.dropWhile_cons, h x (List.mem_cons_self x xs), ite_true]
    exact ih (fun a ha => h a (List.mem_cons_of_mem x ha))

theorem twAll {α} (p : α → Bool) (l : List α) (h : ∀ a ∈ l, p a = true) :
    l.takeWhile p = l := by
  have := twAllApp p l [] h
  simpa using this

theorem inter_flat (sep a : Str) (l : List Str) :
    inter sep (a :: l) = a ++ l.flatMap (fun s => sep ++ s) := by
  induction l generalizing a with
  | nil => simp [inter]
  | cons b r ih => simp [inter, ih b, List.append_assoc]

theorem strip_of_ends (a b : Char) (m : Str) (ha : isSpace a = false) (hb : isSpace b = false) :
    strip (a :: (m ++ [b])) = a :: (m ++ [b]) := by
  unfold strip
  rw [List.dropWhile_cons, if_neg (by simp [ha])]
  rw [show (a :: (m ++ [b])).reverse = b :: (m.reverse ++ [a]) by simp]
  rw [List.dropWhile_cons, if_neg (by simp [hb])]
  simp

theorem parse_shape (d : Node) :
    parse_textbook_content d =
      ("[STUDENT LOCATION]").data ++
        '\n' :: ((("Chapter: ").data ++ (locInfo (stage2 d)).1) ++
        '\n' :: ((("Section: ").data ++ (locInfo (stage2 d)).2) ++
        '\n' :: '\n' :: ((("[SECTION TEXT — AUTHORITATIVE]").data) ++
        ((contentBlocks d).flatMap (fun b => '\n' :: b) ++
        '\n' :: '\n' :: ((("[FIGURES — AUTHORITATIVE]").data) ++
        (figSection (figsOf d)).flatMap (fun s => '\n' :: s)))))) := by
  rw [parse_textbook_content, outputList, inter_flat]
  simp [List.flatMap_cons, List.flatMap_append, List.append_assoc]

mutual
theorem collectC_removeAll (p : Node → Bool)
    (hp : ∀ t c a ch ch2, p (Node.elem t c a ch) = p (Node.elem t c a ch2)) :
    ∀ n, collectC p (removeAll p n) = []
  | .text s => by simp [removeAll, collectC]
  | .elem t c a ch => by
    simp only [removeAll, collectC]
    exact collectL_removeAllL p hp ch

theorem collectL_removeAllL (p : Node → Bool)
    (hp : ∀ t c a ch ch2, p (Node.elem t c a ch) = p (Node.elem t c a ch2)) :
    ∀ l, collectL p (removeAllL p l) = []
  | [] => by simp [removeAllL, collectL]
  | n :: ns => by
    by_cases hn : p n = true
    · rw [removeAllL, if_pos hn]
      exact collectL_removeAllL p hp ns
    · have hn2 : p n = false := by simpa using hn
      rw [removeAllL, if_neg (by simp [hn2])]
      have hkeep : p (removeAll p n) = false := by
        cases n with
        | text s => simpa [removeAll] using hn2
        | elem t c a ch => rw [removeAll, hp t c a _ ch]; exact hn2
      rw [collectL, if_neg (by simp [hkeep])]
      simp only [List.nil_append]
      rw [collectC_removeAll p hp n, collectL_removeAllL p hp ns]
      rfl
end

theorem nEq_isNav (x y : Node) (h : nEq x y = true) : isNav x = isNav y := by
  cases x with
  | text s =>
    cases y with
    | text s2 => rfl
    | elem t c a ch => simp [nEq] at h
  | elem t c a ch =>
    cases y with
    | text s2 => simp [nEq] at h
    | elem t2 c2 a2 ch2 =>
      simp only [nEq, Bool.and_eq_true, beq_iff_eq] at h
      obtain ⟨⟨⟨h1, h2⟩, h3⟩, h4⟩ := h
      subst h2
      rfl

mutual
theorem nEq_removeAll : ∀ n n2, nEq n n2 = true → isNav n = false →
    removeAll isNav n = removeAll isNav n2
  | .text s, .text s2, h, _ => by
    simp only [nEq, beq_iff_eq] at h
    rw [h]
  | .elem t c a ch, .elem t2 c2 a2 ch2, h, hn => by
    simp only [nEq, Bool.and_eq_true, Bool.or_eq_true, beq_iff_eq] at h
    obtain ⟨⟨⟨h1, h2⟩, h3⟩, h4⟩ := h
    subst h1; subst h2; subst h3
    have hch : nEqL ch ch2 = true := by
      rcases h4 with h4 | h4
      · exfalso
        simp only [isNav, hasClass] at hn
        rw [hn] at h4
        exact Bool.false_ne_true h4
      · exact h4
    rw [removeAll, removeAll, nEqL_removeAllL ch ch2 hch]
  | .text _, .elem _ _ _ _, h, _ => by simp [nEq] at h
  | .elem _ _ _ _, .text _, h, _ => by simp [nEq] at h

theorem nEqL_removeAllL : ∀ l l2, nEqL l l2 = true →
    removeAllL isNav l = removeAllL isNav l2
  | [], [], _ => rfl
  | x :: xs, y :: ys, h => by
    simp only [nEqL, Bool.and_eq_true] at h
    obtain ⟨hxy, hrest⟩ := h
    have htl := nEqL_removeAllL xs ys hrest
    by_cases hx : isNav x = true
    · have hy : isNav y = true := (nEq_isNav x y hxy) ▸ hx
      rw [removeAllL, if_pos hx, removeAllL, if_pos hy]
      exact htl
    · have hx2 : isNav x = false := by simpa using hx
      have hy : isNav y = false := (nEq_isNav x y hxy) ▸ hx2
      rw [removeAllL, if_neg (by simp [hx2]), removeAllL, if_neg (by simp [hy])]
      rw [nEq_removeAll x y hxy hx2, htl]
  | [], _ :: _, h => by simp [nEqL] at h
  | _ :: _, [], h => by simp [nEqL] at h
end

/-- Claim C9: content removed as navigation never influences the output.
For any two documents with equal root data whose top-level contents agree
up to the contents of navigation-classed subtrees (at any depth), the
extractor returns identical output; in particular no text of such a subtree
reaches the output. -/
theorem c9_nav_noninterference (t : Str) (c : List Str) (a : List (Str × Str))
    (ch ch2 : List Node) (h : nEqL ch ch2 = true) :
    parse_textbook_content (Node.elem t c a ch) = parse_textbook_content (Node.elem t c a ch2) := by
  have h1 : stage1 (Node.elem t c a ch) = stage1 (Node.elem t c a ch2) := by
    rw [stage1, stage1, removeAll, removeAll, nEqL_removeAllL ch ch2 h]
  simp only [parse_textbook_content, outputList, contentBlocks, stage3, figsOf, stage2, h1]

/-- Witness for C9: two concrete documents that differ only inside a
navigation bar yield identical extractor output. -/
theorem c9_witness :
    parse_textbook_content navDocA = parse_textbook_content navDocB :=
  c9_nav_noninterference (("[document]").data) [] [] navChA navChB (by decide)

theorem lastN_of_le {α} (k : Nat) (l : List α) (h : l.length ≤ k) : lastN k l = l := by
  simp [lastN, Nat.sub_eq_zero_of_le h]

theorem lastN_len {α} (k : Nat) (l : List α) : (lastN k l).length ≤ k := by
  simp only [lastN, List.length_drop]
  omega

theorem stepSession_lastN (h : List HistEntry) (m r : Str) :
    stepSession h m r = lastN 20 (h ++ [((("Student").data), m), ((("Tutor").data), r)]) := by
  simp only [stepSession]
  split
  · rfl
  · next hl => exact (lastN_of_le _ _ (by omega)).symm

theorem lastN_append_lastN {α} (k : Nat) (X Y : List α) :
    lastN k (lastN k X ++ Y) = lastN k (X ++ Y) := by
  by_cases hk : X.length ≤ k
  · rw [lastN_of_le k X hk]
  · have h1 : lastN k X ++ Y = (X ++ Y).drop (X.length - k) := by
      rw [lastN, List.drop_append_of_le_length (by omega)]
    rw [h1, lastN, lastN, List.drop_drop]
    congr 1
    simp only [List.length_drop, List.length_append]
    omega

theorem fullHist_append (ts : List (Str × Str)) (t : Str × Str) :
    fullHist (ts ++ [t]) = fullHist ts ++
      [((("Student").data), t.1), ((("Tutor").data), t.2)] := by
  simp [fullHist]

/-- Claim C10: after any sequence of chat turns on a session, the stored
history has at most 20 entries, and it is exactly the most recent 20 entries
of the full append-only history of role-labelled messages (oldest entries
dropped first, order preserved). -/
theorem c10_history_truncation (ts : List (Str × Str)) :
    (runSession ts).length ≤ 20 ∧ runSession ts = lastN 20 (fullHist ts) := by
  have key : runSession ts = lastN 20 (fullHist ts) := by
    induction ts using List.reverseRecOn with
    | nil => rfl
    | append_singleton ts t ih =>
      rw [runSession, List.foldl_append, List.foldl_cons, List.foldl_nil, ← runSession]
      rw [stepSession_lastN, ih, lastN_append_lastN, fullHist_append]
  exact ⟨key ▸ lastN_len 20 (fullHist ts), key⟩

/-- Claim C3: location parsing. A heading of the form digits, dot, digits,
a space, then a title (not starting with whitespace, no newline) yields the
chapter digits and the label chapter.section em-dash title; a heading that
does not match the pattern yields chapter Unknown and the raw heading text;
a tree with no heading yields Unknown and Unknown Location. In particular
2.1 Kinematics gives chapter 2 and section 2.1 em-dash Kinematics, and
Overview gives Unknown and Overview. -/
theorem c3_location_parsing :
    (∀ c s ttl : Str, c ≠ [] → (∀ ch ∈ c, ch.isDigit = true) →
      s ≠ [] → (∀ ch ∈ s, ch.isDigit = true) →
      (∀ ch ∈ ttl, ch ≠ '\n') → ttl.dropWhile isSpace = ttl →
      locFromText (c ++ '.' :: (s ++ ' ' :: ttl)) =
        (c, c ++ '.' :: (s ++ (" — ").data ++ ttl))) ∧
    (∀ t, matchLoc t = none → locFromText t = ((("Unknown").data), t)) ∧
    (∀ d, findNC (tagIs (("h1").data)) d = none →
      locInfo d = ((("Unknown").data), (("Unknown Location").data))) ∧
    locFromText (("2.1 Kinematics").data) = ((("2").data), (("2.1 — Kinematics").data)) ∧
    locFromText (("Overview").data) = ((("Unknown").data), (("Overview").data)) := by
  refine ⟨?_, ?_, ?_, by decide, by decide⟩
  · intro c s ttl hc hcd hs hsd htn hth
    obtain ⟨c0, ct, rfl⟩ := List.exists_cons_of_ne_nil hc
    obtain ⟨s0, st, rfl⟩ := List.exists_cons_of_ne_nil hs
    have h1 : ((c0 :: ct) ++ '.' :: ((s0 :: st) ++ ' ' :: ttl)).takeWhile Char.isDigit
        = c0 :: ct := by
      rw [twAllApp _ _ _ hcd, List.takeWhile_cons]
      simp
    have h2 : ((c0 :: ct) ++ '.' :: ((s0 :: st) ++ ' ' :: ttl)).dropWhile Char.isDigit
        = '.' :: ((s0 :: st) ++ ' ' :: ttl) := by
      rw [dwAllApp _ _ _ hcd, List.dropWhile_cons]
      simp
    have h3 : ((s0 :: st) ++ ' ' :: ttl).takeWhile Char.isDigit = s0 :: st := by
      rw [twAllApp _ _ _ hsd, List.takeWhile_cons]
      simp
    have h4 : ((s0 :: st) ++ ' ' :: ttl).dropWhile Char.isDigit = ' ' :: ttl := by
      rw [dwAllApp _ _ _ hsd, List.dropWhile_cons]
      simp
    have h5 : (' ' :: ttl).takeWhile isSpace = ' ' :: ttl.takeWhile isSpace := by
      rw [List.takeWhile_cons]
      simp [isSpace]
    have h6 : (' ' :: ttl).dropWhile isSpace = ttl := by
      rw [List.dropWhile_cons, if_pos (by simp [isSpace])]
      exact hth
    have h7 : ttl.takeWhile (fun ch => ch ≠ '\n') = ttl := by
      refine twAll _ _ (fun a ha => ?_)
      simp [htn a ha]
    rw [locFromText, matchLoc]
    simp only [h1, h2, h3, h4, h5, h6, h7, List.isEmpty_cons, Bool.false_eq_true,
      ite_false, if_neg]
  · intro t h
    rw [locFromText, h]
  · intro d h
    rw [locInfo, h]

/-- Witness for C3 at the concrete headings of the claim. -/
theorem c3_witness :
    locFromText ((("2").data) ++ '.' :: ((("1").data) ++ ' ' :: (("Kinematics").data))) =
      ((("2").data), (("2").data ++ '.' :: ((("1").data) ++ (" — ").data ++ (("Kinematics").data)))) ∧
    locFromText (("Overview").data) = ((("Unknown").data), (("Overview").data)) ∧
    locInfo (Node.elem (("[document]").data) [] [] []) =
      ((("Unknown").data), (("Unknown Location").data)) :=
  ⟨c3_location_parsing.1 (("2").data) (("1").data) (("Kinematics").data)
      (by decide) (by decide) (by decide) (by decide) (by decide) (by decide),
   c3_location_parsing.2.1 (("Overview").data) (by decide),
   c3_location_parsing.2.2.1 (Node.elem (("[document]").data) [] [] []) rfl⟩

mutual
theorem figRecs_length : ∀ (b : Bool) (n : Node),
    (figRecs b n).length = (if isFig n then 1 else 0) + (collectC isFig n).length
  | b, .text s => by simp [figRecs, collectC, isFig, hasClass]
  | b, .elem t c a ch => by
    rw [figRecs, collectC]
    by_cases hf : isFig (Node.elem t c a ch) = true
    · rw [if_pos hf, if_pos hf]
      simp only [List.length_cons, figRecsL_length true ch]
      omega
    · rw [if_neg hf, if_neg hf]
      simp only [figRecsL_length b ch]
      omega

theorem figRecsL_length : ∀ (b : Bool) (l : List Node),
    (figRecsL b l).length = (collectL isFig l).length
  | b, [] => rfl
  | b, n :: ns => by
    rw [figRecsL, collectL]
    by_cases hf : isFig n = true
    · rw [if_pos hf]
      simp only [List.length_append, List.length_cons, List.length_nil,
        figRecs_length b n, figRecsL_length b ns, if_pos hf]
    · rw [if_neg hf]
      simp only [List.length_append, List.length_nil,
        figRecs_length b n, figRecsL_length b ns, if_neg hf]
end

theorem figsOf_length (d : Node) :
    (figsOf d).length = (collectC isFig (stage2 d)).length := by
  rw [figsOf]
  cases hs : stage2 d with
  | text s => rfl
  | elem t c a ch =>
    rw [figRecsC, collectC]
    exact figRecsL_length false ch

/-- Claim C4 (corrected): figure extraction. One record per figure
container, in document order, never skipped, and after extraction no
figure container remains in the tree. A container reached intact (not
nested inside another figure container) yields the record of its own
subtree: source reference the image's src attribute when an image is
present else the literal No Source, description the caption's trimmed
visible text else No Caption, id the final path segment of the source
reference. A container nested inside another figure container has already
been destroyed by the enclosing container's removal when its turn comes,
so it finds neither image nor caption and unconditionally yields the
record No Source / No Caption, even when its own image and caption were
present in the input. -/
theorem c4_figure_extraction :
    (∀ d, (figsOf d).length = (collectC isFig (stage2 d)).length) ∧
    (∀ t c a ch, isFig (Node.elem t c a ch) = true →
      figRecs false (Node.elem t c a ch) =
        figRec (Node.elem t c a ch) :: figRecsL true ch) ∧
    (∀ t c a ch, isFig (Node.elem t c a ch) = true →
      figRecs true (Node.elem t c a ch) =
        Fig.mk (("No Source").data) (("No Caption").data) :: figRecsL true ch) ∧
    (∀ n im a2, findNC (tagIs (("img").data)) n = some im →
      getAttr (("src").data) im = some a2 → (figRec n).id = lastSeg a2) ∧
    (∀ n, findNC (tagIs (("img").data)) n = none →
      (figRec n).id = ("No Source").data) ∧
    (∀ n cp, findNC (hasClass (("figure-caption").data)) n = some cp →
      (figRec n).description = getTextStrip cp) ∧
    (∀ n, findNC (hasClass (("figure-caption").data)) n = none →
      (figRec n).description = ("No Caption").data) ∧
    (∀ s2 : Str, '/' ∉ s2 → lastSeg s2 = s2) ∧
    (∀ pre post : Str, '/' ∉ post → lastSeg (pre ++ '/' :: post) = post) ∧
    (∀ d, collectC isFig (stage3 d) = []) := by
  refine ⟨figsOf_length, ?_, ?_, ?_, ?_, ?_, ?_, ?_, ?_, ?_⟩
  · intro t c a ch hf
    rw [figRecs, if_pos hf]
    simp
  · intro t c a ch hf
    rw [figRecs, if_pos hf]
    simp
  · intro n im a2 h1 h2
    simp [figRec, h1, h2]
  · intro n h1
    have hns : lastSeg (("No Source").data) = ("No Source").data := by decide
    simp [figRec, h1, hns]
  · intro n cp h1
    simp [figRec, h1]
  · intro n h1
    simp [figRec, h1]
  · intro s2 h
    rw [lastSeg, twAll _ _ (fun a ha => by
      simp only [decide_eq_true_eq]
      intro hc
      exact h (hc ▸ (List.mem_reverse.mp ha)))]
    exact List.reverse_reverse s2
  · intro pre post h
    rw [lastSeg]
    rw [show (pre ++ '/' :: post).reverse = post.reverse ++ '/' :: pre.reverse by simp]
    rw [twAllApp _ _ _ (fun a ha => by
      simp only [decide_eq_true_eq]
      intro hc
      exact h (hc ▸ (List.mem_reverse.mp ha)))]
    rw [List.takeWhile_cons]
    simp
  · intro d
    rw [stage3]
    exact collectC_removeAll isFig (fun t c a ch ch2 => rfl) (stage2 d)

/-- Counterexample for C4 as stated: with one figure container nested
inside another, the enclosing container's removal has already destroyed
the inner one when its turn comes, so although the inner container has a
descendant image with a src attribute and a caption (its intact record
would be inner.png / Inner caption), the program records the No Source /
No Caption defaults for it; the produced list therefore differs from the
per-container intact records the claim describes. -/
theorem c4_counterexample :
    figRec innerFig = ⟨("inner.png").data, ("Inner caption").data⟩ ∧
    figsOf nestedFigDoc =
      [⟨("inner.png").data, ("Inner caption").data⟩,
       ⟨("No Source").data, ("No Caption").data⟩] ∧
    figsOf nestedFigDoc ≠ (collectC isFig (stage2 nestedFigDoc)).map figRec :=
  ⟨by decide, by decide, by decide⟩

/-- Witness for C4 at the concrete robot and nested figures. -/
theorem c4_witness :
    (figsOf robotDoc).length = (collectC isFig (stage2 robotDoc)).length ∧
    figRecs false robotFig = figRec robotFig :: figRecsL true
      [robotImg,
       Node.elem (("div").data) [("figure-caption").data] []
         [Node.text (("A robot arm").data)]] ∧
    figRecs true innerFig =
      Fig.mk (("No Source").data) (("No Caption").data) :: figRecsL true
        [Node.elem (("img").data) [] [((("src").data), (("/img/inner.png").data))] [],
         Node.elem (("div").data) [("figure-caption").data] []
           [Node.text (("Inner caption").data)]] ∧
    (figRec robotFig).id = lastSeg (("/img/robot.png").data) ∧
    (figRec bareFig).id = ("No Source").data ∧
    lastSeg ((("/img").data) ++ '/' :: (("robot.png").data)) = ("robot.png").data ∧
    collectC isFig (stage3 nestedFigDoc) = [] :=
  ⟨c4_figure_extraction.1 robotDoc,
   c4_figure_extraction.2.1 (("div").data) [("figure-container").data]
     [] [robotImg,
         Node.elem (("div").data) [("figure-caption").data] []
           [Node.text (("A robot arm").data)]] (by decide),
   c4_figure_extraction.2.2.1 (("div").data) [("figure-container").data]
     [] [Node.elem (("img").data) [] [((("src").data), (("/img/inner.png").data))] [],
         Node.elem (("div").data) [("figure-caption").data] []
           [Node.text (("Inner caption").data)]] (by decide),
   c4_figure_extraction.2.2.2.1 robotFig robotImg (("/img/robot.png").data) rfl rfl,
   c4_figure_extraction.2.2.2.2.1 bareFig rfl,
   c4_figure_extraction.2.2.2.2.2.2.2.2.1 (("/img").data) (("robot.png").data) (by decide),
   c4_figure_extraction.2.2.2.2.2.2.2.2.2 nestedFigDoc⟩

/-- Claim C5: figures section rendering. With zero figures the section is
exactly the single line No figures in this section.; otherwise each record
contributes, in discovery order, a description line ending in a colon, a
Filename line, and the fixed Image attached marker; the concrete robot
figure appears in the full output with exactly those lines. -/
theorem c5_figures_section :
    figSection [] = [("No figures in this section.").data] ∧
    (∀ figs : List Fig, figs ≠ [] → figSection figs = figs.flatMap fun f =>
      [f.description ++ [':'], ("Filename: ").data ++ f.id, ("(Image attached)\n").data]) ∧
    figsOf robotDoc = [⟨("robot.png").data, ("A robot arm").data⟩] ∧
    (("A robot arm:\nFilename: robot.png\n(Image attached)\n").data) <:+:
      parse_textbook_content robotDoc := by
  refine ⟨rfl, ?_, by decide, by decide⟩
  intro figs h
  cases figs with
  | nil => exact absurd rfl h
  | cons f fs => rfl

/-- Witness for C5 at a concrete nonempty figure list. -/
theorem c5_witness :
    figSection [⟨("robot.png").data, ("A robot arm").data⟩] =
      [(("A robot arm").data) ++ [':'],
       ("Filename: ").data ++ ("robot.png").data,
       ("(Image attached)\n").data] := by
  rw [c5_figures_section.2.1 [⟨("robot.png").data, ("A robot arm").data⟩] (by decide)]
  rfl

/-- Claim C6: a math container with no machine-readable annotation
descendant is replaced, at its original position, by its own flattened
visible text; it is never dropped and its siblings are preserved. -/
theorem c6_no_annot_fallback (n : Node) (ns : List Node)
    (h1 : isKatex n = true) (h2 : findNC isAnnotTex n = none) :
    replaceTopL isKatex katexRepl (n :: ns) =
      Node.text (getText n) :: replaceTopL isKatex katexRepl ns := by
  rw [replaceTopL, if_pos h1]
  simp [katexRepl, h2]

/-- Witness for C6 at a concrete annotation-free math container. -/
theorem c6_witness :
    replaceTopL isKatex katexRepl [kNoAnnot] = [Node.text (getText kNoAnnot)] := by
  rw [c6_no_annot_fallback kNoAnnot [] (by decide) rfl, replaceTopL]

/-- Claim C8: the extractor is total and substitutes named defaults for
every missing optional substructure: missing image and caption yield the
No Source and No Caption figure record, a sidebar with no header and no
content renders with the Note header and empty body, a math container with
no annotation falls back to its visible text, and a missing heading yields
Unknown and Unknown Location. -/
theorem c8_graceful_defaults :
    (∀ n, findNC (tagIs (("img").data)) n = none →
      findNC (hasClass (("figure-caption").data)) n = none →
      figRec n = ⟨("No Source").data, ("No Caption").data⟩) ∧
    (∀ n, hasClass (("equation-block").data) n = false →
      hasClass (("expandable-section").data) n = true →
      findNC (hasClass (("header-text").data)) n = none →
      findNC (hasClass (("expand-content").data)) n = none →
      blockOf n = some ('\n' :: ((("[SIDEBAR: ").data ++
        (("Note").data ++ ']' :: '\n' :: ['\n']))))) ∧
    (∀ n, findNC isAnnotTex n = none → katexRepl n = getText n) ∧
    (∀ d, findNC (tagIs (("h1").data)) d = none →
      locInfo d = ((("Unknown").data), (("Unknown Location").data))) := by
  refine ⟨?_, ?_, ?_, ?_⟩
  · intro n h1 h2
    have hns : lastSeg (("No Source").data) = ("No Source").data := by decide
    simp [figRec, h1, h2, hns]
  · intro n h1 h2 h3 h4
    simp [blockOf, h1, h2, h3, h4]
  · intro n h
    simp [katexRepl, h]
  · intro d h
    rw [locInfo, h]

/-- Witness for C8 at concrete degenerate nodes. -/
theorem c8_witness :
    figRec bareFig = ⟨("No Source").data, ("No Caption").data⟩ ∧
    blockOf bareSidebar = some ('\n' :: ((("[SIDEBAR: ").data ++
      (("Note").data ++ ']' :: '\n' :: ['\n'])))) ∧
    katexRepl kNoAnnot = getText kNoAnnot ∧
    locInfo (Node.elem (("body").data) [] [] [.text (("hi").data)]) =
      ((("Unknown").data), (("Unknown Location").data)) :=
  ⟨c8_graceful_defaults.1 bareFig rfl rfl,
   c8_graceful_defaults.2.1 bareSidebar (by decide) (by decide) rfl rfl,
   c8_graceful_defaults.2.2.1 kNoAnnot rfl,
   c8_graceful_defaults.2.2.2 (Node.elem (("body").data) [] [] [.text (("hi").data)]) rfl⟩

theorem infL {α} {l r : List α} (x : List α) (h : l <:+: r) : l <:+: x ++ r := by
  obtain ⟨s, t, hs⟩ := h
  exact ⟨x ++ s, t, by rw [← hs]; simp [List.append_assoc]⟩

theorem infR {α} {l r : List α} (x : List α) (h : l <:+: r) : l <:+: r ++ x := by
  obtain ⟨s, t, hs⟩ := h
  exact ⟨s, t ++ x, by rw [← hs]; simp [List.append_assoc]⟩

theorem strip_wrapD (E : Str) :
    strip ('$' :: '$' :: '\n' :: (E ++ ['\n', '$', '$'])) =
      '$' :: '$' :: '\n' :: (E ++ ['\n', '$', '$']) := by
  have h := strip_of_ends '$' '$' ('$' :: '\n' :: (E ++ ['\n', '$'])) (by decide) (by decide)
  simpa [List.append_assoc] using h

theorem annN_getText (E : Str) : getText (annN E) = E := by
  simp [getText, annN, texts, textsL, joinL]

theorem katexD_isDisplay (E : Str) : isDisplay (katexD E) = true := rfl

theorem katexD_repl (E : Str) (hE : strip E = E) :
    katexRepl (katexD E) = '$' :: '$' :: '\n' :: (E ++ ['\n', '$', '$']) := by
  rw [katexRepl, show findNC isAnnotTex (katexD E) = some (annN E) from rfl]
  simp only [annN_getText, hE, katexD_isDisplay, if_true]
  simp [show ("$$\n").data = ['$', '$', '\n'] from rfl,
    show ("\n$$").data = ['\n', '$', '$'] from rfl, List.append_assoc]

theorem katexI_repl (E : Str) (hE : strip E = E) (hd : isDisplay (katexI E) = false) :
    katexRepl (katexI E) = '$' :: (E ++ ['$']) := by
  rw [katexRepl, show findNC isAnnotTex (katexI E) = some (annN E) from rfl]
  simp only [annN_getText, hE, hd, if_false, Bool.false_eq_true, ite_false]

theorem eqPage_stage2 (E : Str) (hE : strip E = E) :
    stage2 (eqPage E) =
      Node.elem (("[document]").data) [] []
        [Node.elem (("div").data) [("equation-block").data] []
          [Node.text ('$' :: '$' :: '\n' :: (E ++ ['\n', '$', '$']))]] := by
  rw [show stage2 (eqPage E) =
      Node.elem (("[document]").data) [] []
        [Node.elem (("div").data) [("equation-block").data] []
          [Node.text (katexRepl (katexD E))]] from rfl,
    katexD_repl E hE]

theorem eqPage_locInfo (E : Str) : locInfo (stage2 (eqPage E)) =
    ((("Unknown").data), (("Unknown Location").data)) := rfl

theorem eqPage_figs (E : Str) : figsOf (eqPage E) = [] := rfl

theorem eqPage_blocks (E : Str) (hE : strip E = E) :
    contentBlocks (eqPage E) =
      ['\n' :: '$' :: '$' :: '\n' :: (E ++ ['\n', '$', '$', '\n'])] := by
  rw [contentBlocks, stage3, eqPage_stage2 E hE]
  rw [show collectC isPDiv (removeAll isFig (Node.elem (("[document]").data) [] []
      [Node.elem (("div").data) [("equation-block").data] []
        [Node.text ('$' :: '$' :: '\n' :: (E ++ ['\n', '$', '$']))]])) =
      [Node.elem (("div").data) [("equation-block").data] []
        [Node.text ('$' :: '$' :: '\n' :: (E ++ ['\n', '$', '$']))]] from rfl]
  rw [show List.filterMap blockOf
      [Node.elem (("div").data) [("equation-block").data] []
        [Node.text ('$' :: '$' :: '\n' :: (E ++ ['\n', '$', '$']))]] =
      ['\n' :: (getTextSpaceStrip (Node.elem (("div").data) [("equation-block").data] []
        [Node.text ('$' :: '$' :: '\n' :: (E ++ ['\n', '$', '$']))]) ++ ['\n'])] from rfl]
  rw [getTextSpaceStrip,
    show texts (Node.elem (("div").data) [("equation-block").data] []
      [Node.text ('$' :: '$' :: '\n' :: (E ++ ['\n', '$', '$']))]) =
      [('$' :: '$' :: '\n' :: (E ++ ['\n', '$', '$']))] from rfl]
  simp [strip_wrapD E, inter, List.append_assoc]

theorem pPage_stage2 (E : Str) (hE : strip E = E) (hd : isDisplay (katexI E) = false) :
    stage2 (pPage E) =
      Node.elem (("[document]").data) [] []
        [Node.elem (("p").data) [] [] [Node.text ('$' :: (E ++ ['$']))]] := by
  rw [show stage2 (pPage E) =
      Node.elem (("[document]").data) [] []
        [Node.elem (("p").data) [] [] [Node.text (katexRepl (katexI E))]] from rfl,
    katexI_repl E hE hd]

theorem pPage_locInfo (E : Str) : locInfo (stage2 (pPage E)) =
    ((("Unknown").data), (("Unknown Location").data)) := rfl

theorem pPage_figs (E : Str) : figsOf (pPage E) = [] := rfl

theorem pPage_blocks (E : Str) (hE : strip E = E) (hd : isDisplay (katexI E) = false) :
    contentBlocks (pPage E) = ['$' :: (E ++ ['$'])] := by
  have hst : strip ('$' :: (E ++ ['$'])) = '$' :: (E ++ ['$']) :=
    strip_of_ends '$' '$' E (by decide) (by decide)
  have hgts : getTextSpaceStrip (Node.elem (("p").data) [] []
      [Node.text ('$' :: (E ++ ['$']))]) = '$' :: (E ++ ['$']) := by
    rw [getTextSpaceStrip, show texts (Node.elem (("p").data) [] []
      [Node.text ('$' :: (E ++ ['$']))]) = [('$' :: (E ++ ['$']))] from rfl]
    simp [hst, inter]
  have hblock : blockOf (Node.elem (("p").data) [] []
      [Node.text ('$' :: (E ++ ['$']))]) = some ('$' :: (E ++ ['$'])) := by
    rw [blockOf]
    simp only [show hasClass (("equation-block").data) (Node.elem (("p").data) [] []
        [Node.text ('$' :: (E ++ ['$']))]) = false from rfl,
      show hasClass (("expandable-section").data) (Node.elem (("p").data) [] []
        [Node.text ('$' :: (E ++ ['$']))]) = false from rfl,
      show tagIs (("p").data) (Node.elem (("p").data) [] []
        [Node.text ('$' :: (E ++ ['$']))]) = true from rfl,
      hgts]
    simp
  rw [contentBlocks, stage3, pPage_stage2 E hE hd]
  rw [show collectC isPDiv (removeAll isFig (Node.elem (("[document]").data) [] []
      [Node.elem (("p").data) [] [] [Node.text ('$' :: (E ++ ['$']))]])) =
      [Node.elem (("p").data) [] [] [Node.text ('$' :: (E ++ ['$']))]] from rfl]
  simp [List.filterMap_cons, hblock]

/-- Claim C1 (corrected): a display-mode math container with annotation text
E is replaced by the text dollar-dollar newline E newline dollar-dollar,
with no surrounding newlines in the replacement itself; when such a
container is the sole content of an equation-block div, block formatting
supplies the surrounding newlines and the output contains the exact
substring newline dollar-dollar newline E newline dollar-dollar. -/
theorem c1_display_math_rendering :
    (∀ n a2, findNC isAnnotTex n = some a2 → isDisplay n = true →
      katexRepl n = ("$$\n").data ++ strip (getText a2) ++ ("\n$$").data) ∧
    (∀ E : Str, strip E = E →
      ('\n' :: '$' :: '$' :: '\n' :: (E ++ ['\n', '$', '$'])) <:+:
        parse_textbook_content (eqPage E)) := by
  constructor
  · intro n a2 h1 h2
    rw [katexRepl, h1]
    simp [h2]
  · intro E hE
    have hfm : (['\n' :: '$' :: '$' :: '\n' :: (E ++ ['\n', '$', '$', '\n'])] : List Str).flatMap
        (fun b => '\n' :: b) =
        '\n' :: '\n' :: '$' :: '$' :: '\n' :: (E ++ ['\n', '$', '$', '\n']) := by
      simp
    rw [parse_shape, eqPage_locInfo E, eqPage_blocks E hE, eqPage_figs E, hfm]
    apply infL
    apply List.infix_cons
    apply infL
    apply List.infix_cons
    apply infL
    apply List.infix_cons
    apply List.infix_cons
    apply infL
    apply infR
    apply List.infix_cons
    exact ⟨[], ['\n'], by simp⟩

/-- Counterexample for C1 as stated: a display-mode math container with
annotation text x=1 sitting at top level, outside any paragraph or div; the
output does not contain the substring newline dollar-dollar newline x=1
newline dollar-dollar (indeed the math reaches no output block at all). -/
theorem c1_counterexample :
    isKatex (katexD (("x=1").data)) = true ∧
    isDisplay (katexD (("x=1").data)) = true ∧
    findNC isAnnotTex (katexD (("x=1").data)) = some (annN (("x=1").data)) ∧
    strip (getText (annN (("x=1").data))) = ("x=1").data ∧
    ¬ ((("\n$$\nx=1\n$$").data) <:+: parse_textbook_content cexDocD) :=
  ⟨rfl, rfl, rfl, by decide, by decide⟩

/-- Witness for C1 at the concrete annotation text x=1. -/
theorem c1_witness :
    katexRepl (katexD (("x=1").data)) =
      ("$$\n").data ++ strip (getText (annN (("x=1").data))) ++ ("\n$$").data ∧
    ('\n' :: '$' :: '$' :: '\n' :: ((("x=1").data) ++ ['\n', '$', '$'])) <:+:
      parse_textbook_content (eqPage (("x=1").data)) :=
  ⟨c1_display_math_rendering.1 (katexD (("x=1").data)) (annN (("x=1").data)) rfl rfl,
   c1_display_math_rendering.2 (("x=1").data) (by decide)⟩

/-- Claim C2 (corrected): an inline (non-display) math container with
annotation text E is replaced by dollar E dollar with no added whitespace;
when such a container is the sole content of a paragraph, the output
contains the exact substring dollar E dollar. -/
theorem c2_inline_math_rendering :
    (∀ n a2, findNC isAnnotTex n = some a2 → isDisplay n = false →
      katexRepl n = '$' :: (strip (getText a2) ++ ['$'])) ∧
    (∀ E : Str, strip E = E → isDisplay (katexI E) = false →
      ('$' :: (E ++ ['$'])) <:+: parse_textbook_content (pPage E)) := by
  constructor
  · intro n a2 h1 h2
    rw [katexRepl, h1]
    simp [h2]
  · intro E hE hd
    have hfm : (['$' :: (E ++ ['$'])] : List Str).flatMap (fun b => '\n' :: b) =
        '\n' :: '$' :: (E ++ ['$']) := by simp
    rw [parse_shape, pPage_locInfo E, pPage_blocks E hE hd, pPage_figs E, hfm]
    apply infL
    apply List.infix_cons
    apply infL
    apply List.infix_cons
    apply infL
    apply List.infix_cons
    apply List.infix_cons
    apply infL
    apply infR
    apply List.infix_cons
    exact List.infix_rfl

/-- Counterexample for C2 as stated: an inline math container with
annotation text x=1 sitting at top level, outside any paragraph or div; the
output does not contain the substring dollar x=1 dollar. -/
theorem c2_counterexample :
    isKatex (katexI (("x=1").data)) = true ∧
    isDisplay (katexI (("x=1").data)) = false ∧
    findNC isAnnotTex (katexI (("x=1").data)) = some (annN (("x=1").data)) ∧
    strip (getText (annN (("x=1").data))) = ("x=1").data ∧
    ¬ ((("$x=1$").data) <:+: parse_textbook_content cexDocI) :=
  ⟨rfl, by decide, rfl, by decide, by decide⟩

/-- Witness for C2 at the concrete annotation text x=1. -/
theorem c2_witness :
    katexRepl (katexI (("x=1").data)) =
      '$' :: (strip (getText (annN (("x=1").data))) ++ ['$']) ∧
    ('$' :: ((("x=1").data) ++ ['$'])) <:+: parse_textbook_content (pPage (("x=1").data)) :=
  ⟨c2_inline_math_rendering.1 (katexI (("x=1").data)) (annN (("x=1").data)) rfl (by decide),
   c2_inline_math_rendering.2 (("x=1").data) (by decide) (by decide)⟩

/-- Claim C7: for every input tree the output is the fixed three labelled
sections in fixed order, STUDENT LOCATION with a chapter line and a section
line, then SECTION TEXT with the content blocks in traversal order, then
FIGURES, separated by blank lines. -/
theorem c7_output_layout (d : Node) :
    parse_textbook_content d =
      ("[STUDENT LOCATION]").data ++
        '\n' :: ((("Chapter: ").data ++ (locInfo (stage2 d)).1) ++
        '\n' :: ((("Section: ").data ++ (locInfo (stage2 d)).2) ++
        '\n' :: '\n' :: ((("[SECTION TEXT — AUTHORITATIVE]").data) ++
        ((contentBlocks d).flatMap (fun b => '\n' :: b) ++
        '\n' :: '\n' :: ((("[FIGURES — AUTHORITATIVE]").data) ++
        (figSection (figsOf d)).flatMap (fun s => '\n' :: s)))))) :=
  parse_shape d
